import Mathlib

/-!
Shallow embedding of the transaction-indexer core (EVM crawler, event
parsers, fallback verifier, RPC failover) and proofs about it.

Source files embedded:
- `src/modules/evm-crawler/services/evm-crawler.service.ts` (`EvmCrawlerService`)
- `src/modules/evm-crawler/services/evm-fallback-crawler.service.ts`
  (`EvmFallbackCrawlerService`)
- `src/modules/evm-crawler/parsers/events/deposit-event-parser.ts`
- `src/modules/evm-crawler/parsers/events/withdraw-event-parser.ts`
- `src/modules/evm-crawler/utils/call-rpc.ts` (`callRpc`)
- `src/modules/transactions/entities/transaction.entity.ts`
  (`TransactionEntity`, column defaults)

JS numbers are modelled as `Int` (block arithmetic can go negative),
uint256 amounts as `Nat`, nullable / possibly-`undefined` values as
`Option`, and the relational table as a list of rows.
-/

/-- `TRANSACTION_OPERATION` enum from `transaction.entity.ts`. -/
inductive TRANSACTION_OPERATION where
  | deposit
  | withdraw
deriving DecidableEq, Repr

/-- `TRANSACTION_STATUS` enum from `transaction.entity.ts`. -/
inductive TRANSACTION_STATUS where
  | PENDING
  | CONFIRMED
  | FAILED
deriving DecidableEq, Repr

/-- `ChainConfig` from `configs/chain-configs.ts` (fields the embedded code
reads; RPC URLs and delays are irrelevant to the persisted state). -/
structure ChainConfig where
  chainId : String
  contract : String
  startBlock : Int
  requiredConfirmations : Int
  reorgDepth : Int
  batchSize : Int
deriving DecidableEq, Repr

/-- A persisted row of the `transactions` table (`TransactionEntity`).
`address` and `tokenAddress` are `Option` because the parsers can yield
`undefined` for them; `rawAmount`/`amount` columns have default `'0'` and
`tokenDecimals` has default `18` in the entity. -/
structure TransactionEntity where
  transactionHash : String
  chainId : String
  address : Option String
  operation : TRANSACTION_OPERATION
  rawAmount : String
  amount : String
  tokenDecimals : Nat
  tokenAddress : Option String
  contractAddress : String
  blockNumber : Int
  blockTime : Int
  blockHash : String
  confirmations : Int
  requireConfirmations : Int
  status : TRANSACTION_STATUS
deriving DecidableEq, Repr

/-- A raw `Deposit`/`Withdraw` event log as delivered by ethers
(`ethers.EventLog`): log metadata plus the decoded args
`(user, tokenAddress, amount uint256, decimals uint8)` per the ABI comment
in the parsers. -/
structure EventLog where
  eventName : String
  /-- `event.address`: the emitting contract. -/
  address : String
  blockNumber : Int
  transactionHash : String
  blockHash : String
  user : String
  tokenAddress : String
  amount : Nat
  decimals : Nat
deriving DecidableEq, Repr

/-- `ParsedEvent` as produced by `DepositEventParser.parseEvent` /
`WithdrawEventParser.parseEvent`: `extractBasicEventData` fields plus the
extracted payload, where each `extract*` helper may return `undefined`. -/
structure ParsedEvent where
  eventName : String
  contractAddress : String
  blockNumber : Int
  transactionHash : String
  blockHash : String
  operation : TRANSACTION_OPERATION
  tokenAddress : Option String
  amount : Option String
  rawAmount : Option String
  decimals : Option Nat
  address : Option String
deriving DecidableEq, Repr

/-- Strip trailing `'0'` characters (used by the `formatUnits` model). -/
def dropTrailingZeros (s : List Char) : List Char :=
  (s.reverse.dropWhile (· = '0')).reverse

/-- Left-pad a digit string with `'0'` up to length `n`. -/
def padZeros (n : Nat) (s : String) : String :=
  String.mk (List.replicate (n - s.length) '0') ++ s

/-- Model of ethers v6 `formatUnits(value, decimals)`: decimal point
inserted `decimals` digits from the right, trailing fractional zeros
trimmed but at least one fractional digit kept. -/
def formatUnits (value : Nat) (decimals : Nat) : String :=
  if decimals = 0 then
    Nat.repr value
  else
    let base := 10 ^ decimals
    let whole := Nat.repr (value / base)
    let frac := padZeros decimals (Nat.repr (value % base))
    let trimmed := dropTrailingZeros frac.toList
    whole ++ "." ++ (if trimmed.isEmpty then "0" else String.mk trimmed)

/-- `extractDecimals(args)`: `args[3] ? Number(args[3]) : undefined`
(a zero `uint8` is falsy in JS, so decimals `0` yields `undefined`).
Shared verbatim by the deposit and withdraw parsers. -/
def extractDecimals (e : EventLog) : Option Nat :=
  if e.decimals = 0 then none else some e.decimals

/-- `extractRawAmount(args)`: `args[2] ? String(args[2]) : undefined`
(a zero `uint256` bigint is falsy, so amount `0` yields `undefined`;
`String` of a bigint is its decimal representation). -/
def extractRawAmount (e : EventLog) : Option String :=
  if e.amount = 0 then none else some (Nat.repr e.amount)

/-- `extractTokenAddress(args)`: `args[1] ? String(args[1]) : undefined`. -/
def extractTokenAddress (e : EventLog) : Option String :=
  if e.tokenAddress = "" then none else some e.tokenAddress

/-- `extractUserAddress(args)`: `args[0] ? String(args[0]) : undefined`. -/
def extractUserAddress (e : EventLog) : Option String :=
  if e.user = "" then none else some e.user

/-- `extractAmount(args)`: `formatUnits(rawAmount, extractDecimals(args) || 18)`
when `rawAmount` is defined, else `undefined`. -/
def extractAmount (e : EventLog) : Option String :=
  match extractRawAmount e with
  | none => none
  | some _ =>
      some (formatUnits e.amount (if e.decimals = 0 then 18 else e.decimals))

/-- `DepositEventParser.parseEvent`: basic event data spread plus the
extracted fields; no case normalization is applied to any address. -/
def parseDepositEvent (e : EventLog) : ParsedEvent :=
  { eventName := e.eventName
    contractAddress := e.address
    blockNumber := e.blockNumber
    transactionHash := e.transactionHash
    blockHash := e.blockHash
    operation := .deposit
    tokenAddress := extractTokenAddress e
    amount := extractAmount e
    rawAmount := extractRawAmount e
    decimals := extractDecimals e
    address := extractUserAddress e }

/-- `WithdrawEventParser.parseEvent` (same extraction helpers, operation
`withdraw`). -/
def parseWithdrawEvent (e : EventLog) : ParsedEvent :=
  { eventName := e.eventName
    contractAddress := e.address
    blockNumber := e.blockNumber
    transactionHash := e.transactionHash
    blockHash := e.blockHash
    operation := .withdraw
    tokenAddress := extractTokenAddress e
    amount := extractAmount e
    rawAmount := extractRawAmount e
    decimals := extractDecimals e
    address := extractUserAddress e }

/-- `EventParserFactory.getParser` dispatch + `BaseEventParser.parse`:
unknown event names yield no parsed event. -/
def parseSingleEvent (e : EventLog) : Option ParsedEvent :=
  if e.eventName = "Deposit" then some (parseDepositEvent e)
  else if e.eventName = "Withdraw" then some (parseWithdrawEvent e)
  else none

/-- `EventParsingService.parseEvents`: parse each log, skipping failures. -/
def parseEvents (es : List EventLog) : List ParsedEvent :=
  es.filterMap parseSingleEvent

/-- In-memory block cache entry (`EvmCrawlerService.blockMap` values). -/
structure BlockInfo where
  blockTime : Int
  blockHash : String
  parentHash : String
deriving DecidableEq, Repr

/-- The `blockMap` cache: block number to info. -/
abbrev BlockMap := List (Int × BlockInfo)

/-- `this.blockMap.get(blockNumber)`. -/
def lookupBlock (bm : BlockMap) (n : Int) : Option BlockInfo :=
  match bm.find? (fun p => p.1 == n) with
  | some p => some p.2
  | none => none

/-- The transaction object built in `saveState` for one parsed event:
the spread of the event plus the crawler-computed fields.  Only entity
columns survive the write; the event's `decimals` is not an entity column,
so `tokenDecimals` is *not* among the written columns (it keeps its DB
value on upsert and its default `18` on insert). -/
structure TxWrite where
  transactionHash : String
  chainId : String
  address : Option String
  operation : TRANSACTION_OPERATION
  rawAmount : Option String
  amount : Option String
  tokenAddress : Option String
  contractAddress : String
  blockNumber : Int
  blockTime : Int
  blockHash : String
  confirmations : Int
  requireConfirmations : Int
  status : TRANSACTION_STATUS
deriving DecidableEq, Repr

/-- Effect of a fresh INSERT of a `TxWrite`: columns not written take
their entity defaults (`rawAmount`/`amount` default `'0'`,
`tokenDecimals` default `18`). -/
def insertRow (p : TxWrite) : TransactionEntity :=
  { transactionHash := p.transactionHash
    chainId := p.chainId
    address := p.address
    operation := p.operation
    rawAmount := p.rawAmount.getD "0"
    amount := p.amount.getD "0"
    tokenDecimals := 18
    tokenAddress := p.tokenAddress
    contractAddress := p.contractAddress
    blockNumber := p.blockNumber
    blockTime := p.blockTime
    blockHash := p.blockHash
    confirmations := p.confirmations
    requireConfirmations := p.requireConfirmations
    status := p.status }

/-- Effect of `ON CONFLICT (transaction_hash) DO UPDATE` on an existing
row: every written column is overwritten, `tokenDecimals` (not written by
the crawler payload) is preserved. -/
def overwriteRow (r : TransactionEntity) (p : TxWrite) : TransactionEntity :=
  { insertRow p with tokenDecimals := r.tokenDecimals }

/-- Whether the table holds a row with the given transaction hash. -/
def hasHash (t : List TransactionEntity) (h : String) : Bool :=
  t.any (fun r => r.transactionHash == h)

/-- Per-row effect of upserting payload `p` on a row. -/
def upsertHit (p : TxWrite) (r : TransactionEntity) : TransactionEntity :=
  if r.transactionHash == p.transactionHash then overwriteRow r p else r

/-- State effect of `manager.upsert(TransactionEntity, transaction,
{ conflictPaths: ['transaction_hash'], skipUpdateIfNoValuesChanged })`:
replace the row with the conflicting hash, or append a fresh insert.
(`skipUpdateIfNoValuesChanged` does not change the resulting state.)
The bulk `manager.save` of all payloads is state-equivalent to folding
this over the payloads: all-fresh saves append in order, and the conflict
fallback upserts each payload in order. -/
def upsertRow (t : List TransactionEntity) (p : TxWrite) : List TransactionEntity :=
  if hasHash t p.transactionHash then t.map (upsertHit p) else t ++ [insertRow p]

/-- `EvmCrawlerService.saveState` step 6a: the transaction object for one
parsed event.  `confirmations` is a single value computed once per batch
(from `events[0]`) and passed in here; `blockTime`/`blockHash` come from
the block cache with fallbacks `0` and `''`. -/
def mkTransaction (cfg : ChainConfig) (bm : BlockMap) (conf : Int)
    (e : ParsedEvent) : TxWrite :=
  { transactionHash := e.transactionHash
    chainId := cfg.chainId
    address := e.address
    operation := e.operation
    rawAmount := e.rawAmount
    amount := e.amount
    tokenAddress := e.tokenAddress
    contractAddress := e.contractAddress
    blockNumber := e.blockNumber
    blockTime := match lookupBlock bm e.blockNumber with
      | some b => b.blockTime
      | none => 0
    blockHash := match lookupBlock bm e.blockNumber with
      | some b => b.blockHash
      | none => ""
    confirmations := conf
    requireConfirmations := cfg.requiredConfirmations
    status := if conf ≥ cfg.requiredConfirmations then .CONFIRMED else .PENDING }

/-- `EvmCrawlerService.saveState` step 6c, per row: rows of this chain
with `confirmations < this.chain.requiredConfirmations` (the live config
value) get `confirmations := min(latestBlock − blockNumber + 1,
requireConfirmations)` and `status` recomputed against the live config;
other rows are untouched. -/
def refreshRow (cfg : ChainConfig) (latestBlock : Int)
    (r : TransactionEntity) : TransactionEntity :=
  if r.chainId = cfg.chainId ∧ r.confirmations < cfg.requiredConfirmations then
    let c := min (latestBlock - r.blockNumber + 1) r.requireConfirmations
    { r with
        confirmations := c
        status := if c ≥ cfg.requiredConfirmations then .CONFIRMED else .PENDING }
  else r

/-- `EvmCrawlerService.saveState`: in one DB transaction, (a) build one
transaction per parsed event with a *batch-wide* `confirmations`
value `latestBlock − events[0].blockNumber + 1`, (b) save them
(upsert-on-conflict keyed on `transaction_hash`), then (c) refresh
confirmations of this chain's rows that are below the live threshold. -/
def saveState (cfg : ChainConfig) (bm : BlockMap) (latestBlock : Int)
    (events : List ParsedEvent) (t : List TransactionEntity) :
    List TransactionEntity :=
  let t1 := match events with
    | [] => t
    | e0 :: _ =>
        let confirmations := latestBlock - e0.blockNumber + 1
        (events.map (mkTransaction cfg bm confirmations)).foldl upsertRow t
  t1.map (refreshRow cfg latestBlock)

/-- Crawler state relevant to the table/checkpoint invariants. -/
structure CrawlerState where
  table : List TransactionEntity
  lastProcessedBlock : Int
  blockMap : BlockMap

/-- One iteration of the `while (fromBlock <= latestBlock)` loop body in
`EvmCrawlerService.crawl` (lines 95–127): fetch + parse events of the
window, `saveState`, advance the checkpoint to `toBlock`, trim the block
cache to `latestBlock − reorgDepth`.  `events` are the parsed events the
RPC returned for the window and `bm` the block cache after
`saveBlockMap`. -/
def crawlIteration (cfg : ChainConfig) (s : CrawlerState) (bm : BlockMap)
    (events : List ParsedEvent) (latestBlock toBlock : Int) : CrawlerState :=
  { table := saveState cfg bm latestBlock events s.table
    lastProcessedBlock := toBlock
    blockMap := bm.filter (fun p => p.1 > latestBlock - cfg.reorgDepth) }

/-- `EvmCrawlerService.rollbackReorg`: delete (in one DB transaction) all
rows of this chain with `blockNumber ≥ reorgBlock`, drop block-cache
entries `≥ reorgBlock`, rewind the checkpoint to `reorgBlock − 1`. -/
def rollbackReorg (cfg : ChainConfig) (reorgBlock : Int) (s : CrawlerState) :
    CrawlerState :=
  { table := s.table.filter
      (fun r => !(r.chainId == cfg.chainId && r.blockNumber ≥ reorgBlock))
    lastProcessedBlock := reorgBlock - 1
    blockMap := s.blockMap.filter (fun p => p.1 < reorgBlock) }

/-- `EvmFallbackCrawlerService.createTransactionEntity`: builds the row
for one parsed event of the receipt; `confirmations = latestBlock −
block.number + 1` (no cap), `tokenDecimals = parsedEvent.decimals || 18`,
`tokenAddress = parsedEvent.tokenAddress || ''`, status compared against
the chain config's `requiredConfirmations`. -/
def createTransactionEntity (p : ParsedEvent) (cfg : ChainConfig)
    (receiptHash : String) (blockNumber : Int) (blockTimeSec : Int)
    (blockHash : String) (latestBlock : Int) : TransactionEntity :=
  let confirmations := latestBlock - blockNumber + 1
  { transactionHash := receiptHash
    chainId := cfg.chainId
    address := p.address
    operation := p.operation
    rawAmount := p.rawAmount.getD "0"
    amount := p.amount.getD "0"
    tokenDecimals := match p.decimals with
      | none => 18
      | some d => if d = 0 then 18 else d
    tokenAddress := some (p.tokenAddress.getD "")
    contractAddress := p.contractAddress
    blockNumber := blockNumber
    blockTime := blockTimeSec * 1000
    blockHash := blockHash
    confirmations := confirmations
    requireConfirmations := cfg.requiredConfirmations
    status := if confirmations ≥ cfg.requiredConfirmations
      then .CONFIRMED else .PENDING }

/-- The persistence effect of `EvmFallbackCrawlerService.
checkAndSaveMissingTransaction` once it decides to save: each built row
is saved via `transactionRepository.save` (an insert of a fresh entity);
the crawler checkpoint in Redis is never touched by this service. -/
def fallbackPersist (t : List TransactionEntity) (lastProcessedBlock : Int)
    (rows : List TransactionEntity) : List TransactionEntity × Int :=
  (t ++ rows, lastProcessedBlock)

/-- JS `String.prototype.includes`: `pat` occurs as a substring of `s`. -/
def strIncludes (s pat : String) : Bool :=
  s.toList.tails.any (fun t => pat.toList.isPrefixOf t)

/-- JS `String.prototype.toLowerCase` (ASCII suffices for the messages and
hex addresses involved). -/
def strToLower (s : String) : String :=
  String.mk (s.toList.map Char.toLower)

/-- The recoverable-error classification of `call-rpc.ts`: the disjunction
of `isRateLimitError`, `isPrunedError`, `isDisconnectError`,
`isDetectNetworkError` and `isJsonRpcProviderError`, each a substring test
on the error message (`isJsonRpcProviderError` lower-cases first).  Errors
are modelled by their message strings. -/
def isRecoverableRpcError (msg : String) : Bool :=
  strIncludes msg "429" ||
  strIncludes msg "has been pruned" ||
  strIncludes msg "disconnect" ||
  strIncludes msg "failed to detect network" ||
  strIncludes (strToLower msg) "internal"

/-- The loop of `callRpc` with its `lastError` accumulator: try each
endpoint in order; a recoverable failure records the error and moves on,
any other failure propagates; after the loop the last recoverable error
(or a generic failure when none was recorded) is thrown. -/
def callRpcAux {T : Type} (f : String → Except String T) :
    List String → Option String → Except String T
  | [], some e => .error e
  | [], none => .error "All RPC calls failed"
  | u :: rest, _lastError =>
      match f u with
      | .ok v => .ok v
      | .error e =>
          if isRecoverableRpcError e then callRpcAux f rest (some e)
          else .error e

/-- `callRpc(f, rpcUrls)` from `call-rpc.ts`: `f` applied to the memoized
provider of each endpoint in order (the memoization does not affect the
result, so `f` takes the endpoint itself here). -/
def callRpc {T : Type} (f : String → Except String T)
    (rpcUrls : List String) : Except String T :=
  callRpcAux f rpcUrls none

/-- `stop()` (crawler lines 64–67): sets `isRunning` to `false`
unconditionally. -/
def stopCrawler (_isRunning : Bool) : Bool := false

/-- The guard at the top of `crawl()` (lines 70–75): the cycle proceeds
unless `isRunning` is already `true` (in which case it only warns and
returns). -/
def crawlEntryProceeds (isRunning : Bool) : Bool := !isRunning

/-- The value of `isRunning` with which the end-of-cycle `setTimeout`
callback (lines 131–134) re-invokes `crawl()`: it assigns
`this.isRunning = false` immediately before the call, unconditionally. -/
def restartFlagValue (_isRunning : Bool) : Bool := false

/-- The windows processed by the `while (fromBlock <= latestBlock)` loop of
one `crawl()` cycle (lines 95–127): the loop body reads only the block
range (the `isRunning` flag is taken as an argument to mirror the crawler's
state but, as in the source, is never consulted by the loop).  `fuel`
bounds the recursion; `crawlCycleWindows` supplies enough for any
`batchSize ≥ 1`. -/
def crawlWindowsAux (batchSize latestBlock : Int) :
    Nat → Int → List (Int × Int)
  | 0, _ => []
  | fuel + 1, fromBlock =>
      if fromBlock ≤ latestBlock then
        let toBlock := min (fromBlock + batchSize - 1) latestBlock
        (fromBlock, toBlock) :: crawlWindowsAux batchSize latestBlock fuel (toBlock + 1)
      else []

/-- All `[fromBlock, toBlock]` windows fetched and persisted by one cycle
of `crawl()` started at `fromBlock` with the given head. -/
def crawlCycleWindows (_isRunning : Bool) (fromBlock latestBlock batchSize : Int) :
    List (Int × Int) :=
  crawlWindowsAux batchSize latestBlock (latestBlock - fromBlock + 1).toNat fromBlock

/-! ### Helper lemmas about the persistence embedding -/

theorem refreshRow_transactionHash (cfg : ChainConfig) (l : Int)
    (r : TransactionEntity) :
    (refreshRow cfg l r).transactionHash = r.transactionHash := by
  unfold refreshRow; split <;> rfl

theorem refreshRow_chainId (cfg : ChainConfig) (l : Int)
    (r : TransactionEntity) : (refreshRow cfg l r).chainId = r.chainId := by
  unfold refreshRow; split <;> rfl

theorem refreshRow_blockNumber (cfg : ChainConfig) (l : Int)
    (r : TransactionEntity) :
    (refreshRow cfg l r).blockNumber = r.blockNumber := by
  unfold refreshRow; split <;> rfl

theorem refreshRow_requireConfirmations (cfg : ChainConfig) (l : Int)
    (r : TransactionEntity) :
    (refreshRow cfg l r).requireConfirmations = r.requireConfirmations := by
  unfold refreshRow; split <;> rfl

theorem refreshRow_tokenDecimals (cfg : ChainConfig) (l : Int)
    (r : TransactionEntity) :
    (refreshRow cfg l r).tokenDecimals = r.tokenDecimals := by
  unfold refreshRow; split <;> rfl

theorem refreshRow_address (cfg : ChainConfig) (l : Int)
    (r : TransactionEntity) : (refreshRow cfg l r).address = r.address := by
  unfold refreshRow; split <;> rfl

theorem refreshRow_tokenAddress (cfg : ChainConfig) (l : Int)
    (r : TransactionEntity) :
    (refreshRow cfg l r).tokenAddress = r.tokenAddress := by
  unfold refreshRow; split <;> rfl

theorem refreshRow_rawAmount (cfg : ChainConfig) (l : Int)
    (r : TransactionEntity) : (refreshRow cfg l r).rawAmount = r.rawAmount := by
  unfold refreshRow; split <;> rfl

theorem refreshRow_amount (cfg : ChainConfig) (l : Int)
    (r : TransactionEntity) : (refreshRow cfg l r).amount = r.amount := by
  unfold refreshRow; split <;> rfl

theorem refreshRow_operation (cfg : ChainConfig) (l : Int)
    (r : TransactionEntity) : (refreshRow cfg l r).operation = r.operation := by
  unfold refreshRow; split <;> rfl

/-- `refreshRow` is idempotent on each row. -/
theorem refreshRow_idem (cfg : ChainConfig) (l : Int) (r : TransactionEntity) :
    refreshRow cfg l (refreshRow cfg l r) = refreshRow cfg l r := by
  unfold refreshRow
  by_cases h : r.chainId = cfg.chainId ∧ r.confirmations < cfg.requiredConfirmations
  · simp only [if_pos h]
    by_cases h2 : min (l - r.blockNumber + 1) r.requireConfirmations <
        cfg.requiredConfirmations
    · simp only [h.1, h2, and_self, if_pos, true_and]
    · simp only [h2, and_false, if_neg, not_false_iff]
  · simp only [if_neg h]

theorem overwriteRow_transactionHash (r : TransactionEntity) (p : TxWrite) :
    (overwriteRow r p).transactionHash = p.transactionHash := rfl

theorem overwriteRow_tokenDecimals (r : TransactionEntity) (p : TxWrite) :
    (overwriteRow r p).tokenDecimals = r.tokenDecimals := rfl

/-- `overwriteRow` depends on the old row only through `tokenDecimals`. -/
theorem overwriteRow_congr (x y : TransactionEntity) (p : TxWrite)
    (h : x.tokenDecimals = y.tokenDecimals) :
    overwriteRow x p = overwriteRow y p := by
  unfold overwriteRow; rw [h]

theorem overwriteRow_insertRow (p : TxWrite) (x : TransactionEntity)
    (h : x.tokenDecimals = 18) : overwriteRow x p = insertRow p := by
  simp [overwriteRow, insertRow, h]

theorem upsertHit_transactionHash (p : TxWrite) (r : TransactionEntity) :
    (upsertHit p r).transactionHash = r.transactionHash := by
  unfold upsertHit
  split
  · next h => exact (overwriteRow_transactionHash r p).trans (beq_iff_eq.mp h).symm
  · rfl

theorem upsertHit_tokenDecimals (p : TxWrite) (r : TransactionEntity) :
    (upsertHit p r).tokenDecimals = r.tokenDecimals := by
  unfold upsertHit; split <;> rfl

/-- Composite per-row effect of upserting a payload list in order. -/
def applyWrites (ps : List TxWrite) (r : TransactionEntity) : TransactionEntity :=
  ps.foldl (fun a p => upsertHit p a) r

/-- Whether some payload of the list targets the given hash. -/
def hashInWrites (ps : List TxWrite) (h : String) : Bool :=
  ps.any (fun p => p.transactionHash == h)

theorem applyWrites_transactionHash (ps : List TxWrite) (r : TransactionEntity) :
    (applyWrites ps r).transactionHash = r.transactionHash := by
  induction ps generalizing r with
  | nil => rfl
  | cons p ps ih =>
      simpa [applyWrites, upsertHit_transactionHash] using
        (ih (upsertHit p r)).trans (upsertHit_transactionHash p r)

theorem applyWrites_tokenDecimals (ps : List TxWrite) (r : TransactionEntity) :
    (applyWrites ps r).tokenDecimals = r.tokenDecimals := by
  induction ps generalizing r with
  | nil => rfl
  | cons p ps ih =>
      simpa [applyWrites, upsertHit_tokenDecimals] using
        (ih (upsertHit p r)).trans (upsertHit_tokenDecimals p r)

theorem hasHash_map_upsertHit (t : List TransactionEntity) (p : TxWrite)
    (h : String) : hasHash (t.map (upsertHit p)) h = hasHash t h := by
  simp only [hasHash, List.any_map, Function.comp_def, upsertHit_transactionHash]

theorem hasHash_map_refreshRow (cfg : ChainConfig) (l : Int)
    (t : List TransactionEntity) (h : String) :
    hasHash (t.map (refreshRow cfg l)) h = hasHash t h := by
  simp only [hasHash, List.any_map, Function.comp_def, refreshRow_transactionHash]

theorem hasHash_upsertRow_of (t : List TransactionEntity) (p : TxWrite)
    (h : String) (hh : hasHash t h = true) :
    hasHash (upsertRow t p) h = true := by
  unfold upsertRow
  split
  · rwa [hasHash_map_upsertHit]
  · simp only [hasHash] at hh
    simp [hasHash, List.any_append, hh]

theorem hasHash_upsertRow_self (t : List TransactionEntity) (p : TxWrite) :
    hasHash (upsertRow t p) p.transactionHash = true := by
  unfold upsertRow
  split
  · next hcond => rwa [hasHash_map_upsertHit]
  · simp [hasHash, List.any_append, insertRow]

theorem hasHash_foldl_upsertRow_of (ps : List TxWrite)
    (t : List TransactionEntity) (h : String) (hh : hasHash t h = true) :
    hasHash (ps.foldl upsertRow t) h = true := by
  induction ps generalizing t with
  | nil => exact hh
  | cons p ps ih => exact ih _ (hasHash_upsertRow_of t p h hh)

theorem hasHash_foldl_upsertRow_mem (ps : List TxWrite)
    (t : List TransactionEntity) (p : TxWrite) (hp : p ∈ ps) :
    hasHash (ps.foldl upsertRow t) p.transactionHash = true := by
  induction ps generalizing t with
  | nil => cases hp
  | cons q ps ih =>
      rcases List.mem_cons.mp hp with rfl | hp'
      · exact hasHash_foldl_upsertRow_of ps _ _ (hasHash_upsertRow_self t p)
      · exact ih _ hp'

/-- When every payload's hash is already present, the fold of upserts is a
pure in-place rewrite of the table. -/
theorem foldl_upsertRow_eq_map (ps : List TxWrite) (t : List TransactionEntity)
    (h : ∀ p ∈ ps, hasHash t p.transactionHash = true) :
    ps.foldl upsertRow t = t.map (applyWrites ps) := by
  induction ps generalizing t with
  | nil =>
      symm
      calc t.map (applyWrites [])
          = t.map (fun r => r) := List.map_congr_left fun a _ => rfl
        _ = t := List.map_id' t
  | cons p ps ih =>
      have h0 : hasHash t p.transactionHash = true := h p (List.mem_cons_self p ps)
      have step : upsertRow t p = t.map (upsertHit p) := by
        unfold upsertRow; rw [if_pos h0]
      rw [List.foldl_cons, step,
        ih (t.map (upsertHit p)) (fun q hq => by
          rw [hasHash_map_upsertHit]
          exact h q (List.mem_cons_of_mem p hq)),
        List.map_map]
      rfl

theorem applyWrites_of_not_targeted (ps : List TxWrite) (r : TransactionEntity)
    (h : hashInWrites ps r.transactionHash = false) : applyWrites ps r = r := by
  induction ps with
  | nil => rfl
  | cons p ps ih =>
      simp only [hashInWrites, List.any_cons, Bool.or_eq_false_iff] at h
      have h1 : p.transactionHash ≠ r.transactionHash := beq_eq_false_iff_ne.mp h.1
      have hne : (r.transactionHash == p.transactionHash) = false :=
        beq_eq_false_iff_ne.mpr (fun he => h1 he.symm)
      have hstep : upsertHit p r = r := by simp [upsertHit, hne]
      have h2 : hashInWrites ps r.transactionHash = false := h.2
      calc applyWrites (p :: ps) r = applyWrites ps (upsertHit p r) := rfl
        _ = applyWrites ps r := by rw [hstep]
        _ = r := ih h2

/-- Rows whose hash no payload targets pass through the upsert fold. -/
theorem mem_of_mem_foldl_upsertRow_untouched (ps : List TxWrite)
    (t : List TransactionEntity) (r : TransactionEntity)
    (hr : r ∈ ps.foldl upsertRow t)
    (h : hashInWrites ps r.transactionHash = false) : r ∈ t := by
  induction ps generalizing t with
  | nil => exact hr
  | cons p ps ih =>
      simp only [hashInWrites, List.any_cons, Bool.or_eq_false_iff] at h
      have hr' : r ∈ upsertRow t p := ih _ hr h.2
      have hne : p.transactionHash ≠ r.transactionHash :=
        beq_eq_false_iff_ne.mp h.1
      unfold upsertRow at hr'
      split at hr'
      · rcases List.mem_map.mp hr' with ⟨m, hm, hrm⟩
        unfold upsertHit at hrm
        split at hrm
        · exact absurd (hrm ▸ overwriteRow_transactionHash m p).symm hne
        · exact hrm ▸ hm
      · rcases List.mem_append.mp hr' with hmem | hmem
        · exact hmem
        · rcases List.mem_singleton.mp hmem with rfl
          exact absurd rfl hne

/-- A row of the upsert fold whose hash *is* targeted by some payload is
fully determined by the payloads (up to its preserved `tokenDecimals`):
re-applying the payload sequence to any row with the same hash and
`tokenDecimals` reproduces it. -/
theorem applyWrites_eq_of_mem (ps : List TxWrite) (t : List TransactionEntity)
    (r : TransactionEntity) (hr : r ∈ ps.foldl upsertRow t)
    (hin : hashInWrites ps r.transactionHash = true)
    (x : TransactionEntity) (hx : x.transactionHash = r.transactionHash)
    (hd : x.tokenDecimals = r.tokenDecimals) : applyWrites ps x = r := by
  induction ps generalizing t x with
  | nil => cases hin
  | cons p ps ih =>
      rw [List.foldl_cons] at hr
      by_cases hps : hashInWrites ps r.transactionHash = true
      · exact ih _ hr hps _
          ((upsertHit_transactionHash p x).trans hx)
          ((upsertHit_tokenDecimals p x).trans hd)
      · have hps' : hashInWrites ps r.transactionHash = false :=
          Bool.eq_false_iff.mpr hps
        have hr' : r ∈ upsertRow t p :=
          mem_of_mem_foldl_upsertRow_untouched ps _ r hr hps'
        have hph : p.transactionHash = r.transactionHash := by
          have hps2 :
              (ps.any fun q => q.transactionHash == r.transactionHash) = false := by
            simpa [hashInWrites] using hps'
          simp only [hashInWrites, List.any_cons, hps2, Bool.or_false] at hin
          exact beq_iff_eq.mp hin
        have hxph : (x.transactionHash == p.transactionHash) = true :=
          beq_iff_eq.mpr (hx.trans hph.symm)
        have step1 : applyWrites (p :: ps) x = applyWrites ps (overwriteRow x p) := by
          simp only [applyWrites, List.foldl_cons]
          congr 1
          simp [upsertHit, hxph]
        have hohash : (overwriteRow x p).transactionHash = r.transactionHash :=
          (overwriteRow_transactionHash x p).trans hph
        have step2 : applyWrites ps (overwriteRow x p) = overwriteRow x p :=
          applyWrites_of_not_targeted ps _ (by rw [hohash]; exact hps')
        rw [step1, step2]
        -- identify `r` inside `upsertRow t p`
        unfold upsertRow at hr'
        split at hr'
        · next hcond =>
            rcases List.mem_map.mp hr' with ⟨m, hm, hrm⟩
            unfold upsertHit at hrm
            split at hrm
            · rw [← hrm]
              exact overwriteRow_congr x m p
                (hd.trans (by rw [← hrm, overwriteRow_tokenDecimals]))
            · next hmne =>
                exfalso
                apply hmne
                rw [hrm]
                exact beq_iff_eq.mpr hph.symm
        · next hcond =>
            rcases List.mem_append.mp hr' with hmem | hmem
            · exfalso
              apply hcond
              have : hasHash t p.transactionHash = true := by
                unfold hasHash
                rw [List.any_eq_true]
                exact ⟨r, hmem, beq_iff_eq.mpr hph.symm⟩
              exact this
            · rcases List.mem_singleton.mp hmem with rfl
              exact overwriteRow_insertRow p x hd

/-- C5: Re-running the crawler's persist step over the same canonical chain
state (same head, same parsed logs, same block cache) leaves the
transactions table exactly as after the first run: the
save-then-upsert-on-conflict path keyed on `transactionHash` plus the
deterministic confirmation recomputation produce no duplicate rows and no
field changes. -/
theorem saveState_replay_idempotent (cfg : ChainConfig) (bm : BlockMap)
    (latestBlock : Int) (events : List ParsedEvent)
    (t : List TransactionEntity) :
    saveState cfg bm latestBlock events (saveState cfg bm latestBlock events t) =
      saveState cfg bm latestBlock events t := by
  unfold saveState
  cases events with
  | nil =>
      dsimp only
      rw [List.map_map]
      exact List.map_congr_left fun r _ => refreshRow_idem cfg latestBlock r
  | cons e0 es =>
      dsimp only
      set ps := (e0 :: es).map
        (mkTransaction cfg bm (latestBlock - e0.blockNumber + 1)) with hps
      set A := ps.foldl upsertRow t with hA
      have hall : ∀ p ∈ ps,
          hasHash (A.map (refreshRow cfg latestBlock)) p.transactionHash = true := by
        intro p hp
        rw [hasHash_map_refreshRow]
        exact hasHash_foldl_upsertRow_mem ps t p hp
      rw [foldl_upsertRow_eq_map ps _ hall, List.map_map, List.map_map]
      refine List.map_congr_left fun r hr => ?_
      show refreshRow cfg latestBlock
          (applyWrites ps (refreshRow cfg latestBlock r)) =
        refreshRow cfg latestBlock r
      by_cases hin : hashInWrites ps r.transactionHash = true
      · rw [applyWrites_eq_of_mem ps t r hr hin (refreshRow cfg latestBlock r)
          (refreshRow_transactionHash cfg latestBlock r)
          (refreshRow_tokenDecimals cfg latestBlock r)]
      · have hfalse : hashInWrites ps r.transactionHash = false :=
          Bool.eq_false_iff.mpr hin
        rw [applyWrites_of_not_targeted ps _
          (by rw [refreshRow_transactionHash]; exact hfalse)]
        exact refreshRow_idem cfg latestBlock r

/-- The write-determined fields shared by `insertRow` and `overwriteRow`. -/
def writtenFieldsEq (r : TransactionEntity) (p : TxWrite) : Prop :=
  r.chainId = p.chainId ∧ r.blockNumber = p.blockNumber ∧
  r.confirmations = p.confirmations ∧
  r.requireConfirmations = p.requireConfirmations ∧ r.status = p.status

theorem writtenFieldsEq_insertRow (p : TxWrite) :
    writtenFieldsEq (insertRow p) p :=
  ⟨rfl, rfl, rfl, rfl, rfl⟩

theorem writtenFieldsEq_overwriteRow (r : TransactionEntity) (p : TxWrite) :
    writtenFieldsEq (overwriteRow r p) p :=
  ⟨rfl, rfl, rfl, rfl, rfl⟩

/-- Every row of the upsert fold either came from the starting table or has
the write-determined fields of one of the payloads. -/
theorem mem_foldl_upsertRow (ps : List TxWrite) (t : List TransactionEntity)
    (r : TransactionEntity) (hr : r ∈ ps.foldl upsertRow t) :
    r ∈ t ∨ ∃ p ∈ ps, writtenFieldsEq r p := by
  induction ps generalizing t with
  | nil => exact Or.inl hr
  | cons p ps ih =>
      rw [List.foldl_cons] at hr
      rcases ih _ hr with hmem | ⟨q, hq, hw⟩
      · unfold upsertRow at hmem
        split at hmem
        · rcases List.mem_map.mp hmem with ⟨m, hm, hrm⟩
          unfold upsertHit at hrm
          split at hrm
          · exact Or.inr ⟨p, List.mem_cons_self p ps,
              hrm ▸ writtenFieldsEq_overwriteRow m p⟩
          · exact Or.inl (hrm ▸ hm)
        · rcases List.mem_append.mp hmem with hmem' | hmem'
          · exact Or.inl hmem'
          · rcases List.mem_singleton.mp hmem' with rfl
            exact Or.inr ⟨p, List.mem_cons_self p ps, writtenFieldsEq_insertRow p⟩
      · exact Or.inr ⟨q, List.mem_cons_of_mem p hq, hw⟩

/-- Invariant I2: a row's status is `CONFIRMED` exactly when its
confirmations have reached its own `requireConfirmations`. -/
def statusCoherent (r : TransactionEntity) : Prop :=
  r.status = .CONFIRMED ↔ r.confirmations ≥ r.requireConfirmations

/-- The crawler's insert payloads are status-coherent (the payload compares
against the same live value it copies into `requireConfirmations`). -/
theorem mkTransaction_statusCoherent (cfg : ChainConfig) (bm : BlockMap)
    (conf : Int) (e : ParsedEvent) (r : TransactionEntity)
    (hw : writtenFieldsEq r (mkTransaction cfg bm conf e)) : statusCoherent r := by
  obtain ⟨-, -, hc, hq, hs⟩ := hw
  unfold statusCoherent
  rw [hc, hq, hs]
  unfold mkTransaction
  dsimp only
  constructor
  · intro hcf
    by_cases h : conf ≥ cfg.requiredConfirmations
    · exact h
    · rw [if_neg h] at hcf; cases hcf
  · intro h
    rw [if_pos h]

/-- The refresh step keeps a row status-coherent provided the row's own
`requireConfirmations` agrees with the live config value it is compared
against. -/
theorem refreshRow_statusCoherent (cfg : ChainConfig) (l : Int)
    (r : TransactionEntity) (hc : statusCoherent r)
    (hq : r.chainId = cfg.chainId →
      r.requireConfirmations = cfg.requiredConfirmations) :
    statusCoherent (refreshRow cfg l r) := by
  unfold refreshRow
  by_cases h : r.chainId = cfg.chainId ∧ r.confirmations < cfg.requiredConfirmations
  · rw [if_pos h]
    have hreq := hq h.1
    unfold statusCoherent
    dsimp only
    rw [hreq]
    constructor
    · intro hcf
      by_cases hge : min (l - r.blockNumber + 1) cfg.requiredConfirmations ≥
          cfg.requiredConfirmations
      · exact hge
      · rw [if_neg hge] at hcf; cases hcf
    · intro hge
      rw [if_pos hge]
  · rw [if_neg h]; exact hc

/-- Fallback-verifier rows are status-coherent at creation: the same
`latestBlock − blockNumber + 1` value is compared against the same
`requiredConfirmations` that is copied into the row. -/
theorem createTransactionEntity_statusCoherent (p : ParsedEvent)
    (cfg : ChainConfig) (receiptHash : String) (bn bts : Int) (bh : String)
    (latest : Int) :
    statusCoherent (createTransactionEntity p cfg receiptHash bn bts bh latest) := by
  unfold statusCoherent createTransactionEntity
  dsimp only
  constructor
  · intro hcf
    by_cases h : latest - bn + 1 ≥ cfg.requiredConfirmations
    · exact h
    · rw [if_neg h] at hcf; cases hcf
  · intro h
    rw [if_pos h]

/-! ### Concrete fixtures (scenario of §8: chainId "1", requiredConfirmations 12) -/

def cfgE : ChainConfig :=
  { chainId := "1", contract := "0xCC", startBlock := 1000,
    requiredConfirmations := 12, reorgDepth := 12, batchSize := 100 }

/-- Parsed `Deposit` event at block 1005 (tx `0xA`). -/
def evD1005 : ParsedEvent :=
  { eventName := "Deposit", contractAddress := "0xCC", blockNumber := 1005,
    transactionHash := "0xA", blockHash := "0xh1005",
    operation := .deposit, tokenAddress := some "0xT",
    amount := some "1.0", rawAmount := some "1000000000000000000",
    decimals := some 18, address := some "0xU" }

/-- Parsed `Deposit` event at block 1015 (tx `0xB`). -/
def evD1015 : ParsedEvent :=
  { evD1005 with
    blockNumber := 1015
    transactionHash := "0xB"
    blockHash := "0xh1015" }

/-- C1: the crawler's persist step does not compute confirmations per
event.  `saveState` computes a single `confirmations = head −
events[0].blockNumber + 1` for the whole batch: with head 1020 and events
at blocks 1005 and 1015, both rows are stored with confirmations 16 and
status CONFIRMED, although the block-1015 event's own value would be
1020 − 1015 + 1 = 6 (and the in-transaction refresh skips the row because
16 ≥ 12).  The claim's single-event example (one deposit at block 1005
with head 1010, stored with confirmations 6) does hold. -/
theorem saveState_uses_first_event_confirmations :
    (saveState cfgE [] 1020 [evD1005, evD1015] []).map
        (fun r => (r.transactionHash, r.confirmations, r.status)) =
      [("0xA", 16, .CONFIRMED), ("0xB", 16, .CONFIRMED)] ∧
    (1020 - 1015 + 1 : Int) = 6 ∧
    (saveState cfgE [] 1010 [evD1005] []).map
        (fun r => (r.confirmations, r.status)) = [(6, .PENDING)] := by
  decide

/-- A stale row whose `requireConfirmations` (6) differs from the live
config's `requiredConfirmations` (12), as after an operator raises the
threshold between deployments. -/
def rowStale : TransactionEntity :=
  { transactionHash := "0xC2", chainId := "1", address := some "0xU",
    operation := .deposit, rawAmount := "0", amount := "0",
    tokenDecimals := 18, tokenAddress := none, contractAddress := "0xCC",
    blockNumber := 100, blockTime := 0, blockHash := "0xh100",
    confirmations := 3, requireConfirmations := 6, status := .PENDING }

/-- C2 counterexample: the refresh step compares against the *live*
config, not the row's own `requireConfirmations`.  Refreshing `rowStale`
(requireConfirmations 6) under a live threshold of 12 caps its
confirmations at 6 but leaves it PENDING, so a row ends up with
`confirmations ≥ requireConfirmations` and `status ≠ CONFIRMED`. -/
theorem saveState_status_coherence_fails_for_stale_rows :
    ∃ r ∈ saveState cfgE [] 2000 [] [rowStale],
      r.confirmations ≥ r.requireConfirmations ∧
      r.status ≠ TRANSACTION_STATUS.CONFIRMED := by
  decide

/-- C2 (amended): after any write by the crawler's persist step or the
fallback verifier, `status = CONFIRMED ⇔ confirmations ≥
requireConfirmations` holds for every row, *provided* every pre-existing
row of this chain has `requireConfirmations` equal to the live config's
`requiredConfirmations` (the refresh step compares against the live value,
so the biconditional can fail for rows inserted under a different
threshold).  Fallback-verifier rows satisfy it unconditionally at
creation. -/
theorem saveState_status_coherence (cfg : ChainConfig) (bm : BlockMap)
    (latestBlock : Int) (events : List ParsedEvent)
    (t : List TransactionEntity)
    (h1 : ∀ r ∈ t, statusCoherent r)
    (h2 : ∀ r ∈ t, r.chainId = cfg.chainId →
      r.requireConfirmations = cfg.requiredConfirmations) :
    (∀ r ∈ saveState cfg bm latestBlock events t, statusCoherent r) ∧
    (∀ (p : ParsedEvent) (receiptHash : String) (bn bts : Int) (bh : String)
      (latest : Int),
      statusCoherent (createTransactionEntity p cfg receiptHash bn bts bh latest)) := by
  constructor
  · intro r hr
    unfold saveState at hr
    rcases List.mem_map.mp hr with ⟨a, ha, rfl⟩
    have key : statusCoherent a ∧ (a.chainId = cfg.chainId →
        a.requireConfirmations = cfg.requiredConfirmations) := by
      cases events with
      | nil => exact ⟨h1 a ha, h2 a ha⟩
      | cons e0 es =>
          rcases mem_foldl_upsertRow _ t a ha with hmem | ⟨p, hp, hw⟩
          · exact ⟨h1 a hmem, h2 a hmem⟩
          · rcases List.mem_map.mp hp with ⟨e, he, rfl⟩
            exact ⟨mkTransaction_statusCoherent cfg bm _ e a hw,
              fun _ => hw.2.2.2.1⟩
    exact refreshRow_statusCoherent cfg latestBlock a key.1 key.2
  · intro p receiptHash bn bts bh latest
    exact createTransactionEntity_statusCoherent p cfg receiptHash bn bts bh latest

/-- The row persisted for `evD1005` by the crawler at head 1010 over an
empty table. -/
def rowA1005 : TransactionEntity :=
  { transactionHash := "0xA", chainId := "1", address := some "0xU",
    operation := .deposit, rawAmount := "1000000000000000000",
    amount := "1.0", tokenDecimals := 18, tokenAddress := some "0xT",
    contractAddress := "0xCC", blockNumber := 1005, blockTime := 0,
    blockHash := "", confirmations := 6, requireConfirmations := 12,
    status := .PENDING }

/-- Witness for the amended C2 theorem at a concrete instance. -/
theorem saveState_status_coherence_witness :
    statusCoherent rowA1005 ∧
    statusCoherent (createTransactionEntity evD1005 cfgE "0xBEEF" 1008 0 "0xh1008" 1025) := by
  have h := saveState_status_coherence cfgE [] 1010 [evD1005] []
    (by intro r hr; cases hr) (by intro r hr; cases hr)
  exact ⟨h.1 rowA1005 (by decide), h.2 evD1005 "0xBEEF" 1008 0 "0xh1008" 1025⟩

/-- C3 counterexample: the fallback verifier does *not* cap confirmations.
For a receipt at block 1008 with head 1025 and requiredConfirmations 12,
`createTransactionEntity` stores confirmations 18 (not 12 as the claim
states); the status is CONFIRMED. -/
theorem createTransactionEntity_not_capped :
    (createTransactionEntity evD1005 cfgE "0xBEEF" 1008 0 "0xh1008" 1025).confirmations = 18 ∧
    (createTransactionEntity evD1005 cfgE "0xBEEF" 1008 0 "0xh1008" 1025).status =
      TRANSACTION_STATUS.CONFIRMED ∧
    (18 : Int) ≠ 12 := by
  decide

/-- C3 (amended): every row persisted by the fallback verifier carries the
*uncapped* `confirmations = head − blockNumber + 1` (18 in the §8 S6
scenario, not capped to 12), with `requireConfirmations` copied from the
config and `status = CONFIRMED` exactly when that uncapped value reaches
the threshold. -/
theorem createTransactionEntity_confirmations (p : ParsedEvent)
    (cfg : ChainConfig) (receiptHash : String) (bn bts : Int) (bh : String)
    (latest : Int) :
    (createTransactionEntity p cfg receiptHash bn bts bh latest).confirmations =
      latest - bn + 1 ∧
    (createTransactionEntity p cfg receiptHash bn bts bh latest).requireConfirmations =
      cfg.requiredConfirmations ∧
    statusCoherent (createTransactionEntity p cfg receiptHash bn bts bh latest) :=
  ⟨rfl, rfl, createTransactionEntity_statusCoherent p cfg receiptHash bn bts bh latest⟩

/-- C4 (amended): each crawler iteration re-establishes "checkpoint
dominates data": if every existing row of this chain is at or below the
checkpoint, the checkpoint is at or below the window end, and the window's
events are within the window, then after persisting and advancing the
checkpoint to `toBlock` every row of this chain is at or below the new
checkpoint.  (The fallback verifier breaks the unqualified invariant, see
the counterexample.) -/
theorem crawlIteration_checkpoint_dominates (cfg : ChainConfig)
    (s : CrawlerState) (bm : BlockMap) (events : List ParsedEvent)
    (latestBlock toBlock : Int)
    (hInv : ∀ r ∈ s.table, r.chainId = cfg.chainId →
      r.blockNumber ≤ s.lastProcessedBlock)
    (hlp : s.lastProcessedBlock ≤ toBlock)
    (hev : ∀ e ∈ events, e.blockNumber ≤ toBlock) :
    ∀ r ∈ (crawlIteration cfg s bm events latestBlock toBlock).table,
      r.chainId = cfg.chainId →
      r.blockNumber ≤
        (crawlIteration cfg s bm events latestBlock toBlock).lastProcessedBlock := by
  intro r hr hch
  show r.blockNumber ≤ toBlock
  have hr' : r ∈ saveState cfg bm latestBlock events s.table := hr
  unfold saveState at hr'
  rcases List.mem_map.mp hr' with ⟨a, ha, rfl⟩
  rw [refreshRow_blockNumber]
  rw [refreshRow_chainId] at hch
  cases events with
  | nil => exact le_trans (hInv a ha hch) hlp
  | cons e0 es =>
      rcases mem_foldl_upsertRow _ s.table a ha with hmem | ⟨p, hp, hw⟩
      · exact le_trans (hInv a hmem hch) hlp
      · rcases List.mem_map.mp hp with ⟨e, he, rfl⟩
        rw [hw.2.1]
        exact hev e he

/-- Crawler state before the witness iteration: empty table, checkpoint
1000. -/
def sC4 : CrawlerState :=
  { table := [], lastProcessedBlock := 1000, blockMap := [] }

/-- The row the witness iteration persists for `evD1005` (head 1010):
block-cache miss stamps `blockTime 0` / `blockHash ""`. -/
def rowC4 : TransactionEntity :=
  { transactionHash := "0xA", chainId := "1", address := some "0xU",
    operation := .deposit, rawAmount := "1000000000000000000",
    amount := "1.0", tokenDecimals := 18, tokenAddress := some "0xT",
    contractAddress := "0xCC", blockNumber := 1005, blockTime := 0,
    blockHash := "", confirmations := 6, requireConfirmations := 12,
    status := .PENDING }

/-- Witness for the amended C4 theorem at a concrete iteration. -/
theorem crawlIteration_checkpoint_dominates_witness :
    rowC4.blockNumber ≤
      (crawlIteration cfgE sC4 [] [evD1005] 1010 1010).lastProcessedBlock :=
  crawlIteration_checkpoint_dominates cfgE sC4 [] [evD1005] 1010 1010
    (by intro r hr; cases hr) (by decide) (by decide) rowC4 (by decide) (by decide)

/-- A row the fallback verifier backfills at block 2000 while the
crawler's checkpoint is 1017. -/
def rowC4F : TransactionEntity :=
  createTransactionEntity evD1005 cfgE "0xBEEF" 2000 0 "0xh2000" 2010

/-- C4 counterexample: the fallback verifier inserts rows without touching
the checkpoint, so a backfilled transaction at block 2000 leaves the
checkpoint at 1017 and the table holds a row of this chain with
`blockNumber > lastProcessedBlock`. -/
theorem fallback_breaks_checkpoint_dominance :
    (fallbackPersist [] 1017 [rowC4F]).2 = 1017 ∧
    ∃ r ∈ (fallbackPersist [] 1017 [rowC4F]).1,
      r.chainId = cfgE.chainId ∧
      r.blockNumber > (fallbackPersist [] 1017 [rowC4F]).2 := by
  decide

/-- C6: `rollbackReorg R` removes exactly this chain's rows with
`blockNumber ≥ R` (other rows survive), drops every block-cache entry with
number `≥ R`, and rewinds the checkpoint to `R − 1`. -/
theorem rollbackReorg_spec (cfg : ChainConfig) (R : Int) (s : CrawlerState) :
    (∀ r ∈ (rollbackReorg cfg R s).table,
      r.chainId = cfg.chainId → r.blockNumber < R) ∧
    (∀ r ∈ s.table, (r.chainId ≠ cfg.chainId ∨ r.blockNumber < R) →
      r ∈ (rollbackReorg cfg R s).table) ∧
    (∀ p ∈ (rollbackReorg cfg R s).blockMap, p.1 < R) ∧
    (rollbackReorg cfg R s).lastProcessedBlock = R - 1 := by
  refine ⟨?_, ?_, ?_, rfl⟩
  · intro r hr hc
    have hp := (List.mem_filter.mp hr).2
    simp only [Bool.not_eq_true', Bool.and_eq_false_iff, beq_eq_false_iff_ne,
      decide_eq_false_iff_not, not_le, ge_iff_le] at hp
    rcases hp with h | h
    · exact absurd hc h
    · exact h
  · intro r hr hcond
    refine List.mem_filter.mpr ⟨hr, ?_⟩
    simp only [Bool.not_eq_true', Bool.and_eq_false_iff, beq_eq_false_iff_ne,
      decide_eq_false_iff_not, not_le, ge_iff_le]
    exact hcond
  · intro p hpm
    have hp := (List.mem_filter.mp hpm).2
    exact of_decide_eq_true hp

/-- Block-cache entry fixture. -/
def biX : BlockInfo := { blockTime := 0, blockHash := "0xh", parentHash := "0xp" }

/-- Chain-"1" rows at blocks 1005 and 1015 plus a chain-"2" row at 1015. -/
def rowK : TransactionEntity := { rowC4 with transactionHash := "0xK" }

def rowG : TransactionEntity :=
  { rowC4 with
    transactionHash := "0xG"
    blockNumber := 1015 }

def rowOther : TransactionEntity :=
  { rowC4 with
    transactionHash := "0xO"
    chainId := "137"
    blockNumber := 1015 }

def sC6 : CrawlerState :=
  { table := [rowK, rowG, rowOther], lastProcessedBlock := 1020,
    blockMap := [(1014, biX), (1015, biX)] }

/-- Witness for the C6 theorem at a concrete rollback (R = 1015): the
block-1005 row survives and is below R, the chain-"137" row survives, and
the checkpoint becomes 1014. -/
theorem rollbackReorg_spec_witness :
    rowK.blockNumber < 1015 ∧
    rowOther ∈ (rollbackReorg cfgE 1015 sC6).table ∧
    (rollbackReorg cfgE 1015 sC6).lastProcessedBlock = 1015 - 1 :=
  ⟨(rollbackReorg_spec cfgE 1015 sC6).1 rowK (by decide) (by decide),
   (rollbackReorg_spec cfgE 1015 sC6).2.1 rowOther (by decide) (by decide),
   (rollbackReorg_spec cfgE 1015 sC6).2.2.2⟩

/-- C7: `stop()` does not stop the crawler.  The batch loop of `crawl()`
never reads `isRunning`, so a cycle started with the flag cleared by
`stop()` still fetches and persists every remaining window (identically to
a running flag); and the end-of-cycle restart callback clears `isRunning`
immediately before re-invoking `crawl()`, whose entry guard only returns
when the flag is `true`, so a new cycle is always scheduled and always
proceeds. -/
theorem crawl_ignores_stop_flag :
    crawlCycleWindows (stopCrawler true) 1001 1200 100 =
      [(1001, 1100), (1101, 1200)] ∧
    crawlCycleWindows false 1001 1200 100 =
      crawlCycleWindows true 1001 1200 100 ∧
    crawlEntryProceeds (restartFlagValue true) = true ∧
    crawlEntryProceeds (stopCrawler true) = true := by
  decide

/-- A synthesized `Deposit` log with a checksummed (mixed-case) user
address and decimals 6, as ethers delivers addresses. -/
def logC8 : EventLog :=
  { eventName := "Deposit", address := "0xCC", blockNumber := 1005,
    transactionHash := "0xA", blockHash := "0xh1005",
    user := "0xAbCd", tokenAddress := "0xTtT", amount := 5, decimals := 6 }

/-- C8 counterexample: parsing `logC8` and persisting through the crawler
stores the user address exactly as received — `"0xAbCd"`, which is not its
lower-cased form — and stores `tokenDecimals = 18` (the column default;
the crawler's write payload does not include the parsed decimals), not the
input decimals 6.  So "addresses stored lower-cased" and "decimals equal
the inputs" both fail. -/
theorem deposit_roundtrip_not_lowercased :
    (saveState cfgE [] 1010 (parseEvents [logC8]) []).map
        (fun r => (r.address, r.tokenDecimals)) = [(some "0xAbCd", 18)] ∧
    strToLower "0xAbCd" ≠ "0xAbCd" ∧
    (18 : Nat) ≠ 6 := by
  decide

/-- C8 (amended): parsing a synthesized `Deposit(addr, token, amount,
decimals)` log yields a parsed event whose fields equal the inputs
*verbatim* (no case normalization anywhere) with `operation = deposit`,
and persisting it through the crawler stores `address`, `tokenAddress` and
`rawAmount` verbatim while `tokenDecimals` is always the column default 18
(the crawler path never writes the parsed decimals; the fallback path
does). -/
theorem deposit_roundtrip_verbatim (e : EventLog) (cfg : ChainConfig)
    (bm : BlockMap) (latest : Int) (hn : e.eventName = "Deposit")
    (hu : e.user ≠ "") (ht : e.tokenAddress ≠ "") (ha : e.amount ≠ 0) :
    parseSingleEvent e = some (parseDepositEvent e) ∧
    (parseDepositEvent e).operation = .deposit ∧
    (parseDepositEvent e).address = some e.user ∧
    (parseDepositEvent e).tokenAddress = some e.tokenAddress ∧
    (parseDepositEvent e).rawAmount = some (Nat.repr e.amount) ∧
    (saveState cfg bm latest [parseDepositEvent e] []).map
        (fun r => (r.address, r.tokenAddress, r.rawAmount, r.operation,
          r.tokenDecimals)) =
      [(some e.user, some e.tokenAddress, Nat.repr e.amount,
        TRANSACTION_OPERATION.deposit, 18)] := by
  refine ⟨by simp [parseSingleEvent, hn], rfl, ?_, ?_, ?_, ?_⟩
  · simp [parseDepositEvent, extractUserAddress, hu]
  · simp [parseDepositEvent, extractTokenAddress, ht]
  · simp [parseDepositEvent, extractRawAmount, ha]
  · have hsave : saveState cfg bm latest [parseDepositEvent e] [] =
        [refreshRow cfg latest (insertRow (mkTransaction cfg bm
          (latest - (parseDepositEvent e).blockNumber + 1)
          (parseDepositEvent e)))] := rfl
    rw [hsave]
    simp only [List.map_cons, List.map_nil, refreshRow_address,
      refreshRow_tokenAddress, refreshRow_rawAmount, refreshRow_operation,
      refreshRow_tokenDecimals]
    simp [insertRow, mkTransaction, parseDepositEvent, extractUserAddress, hu,
      extractTokenAddress, ht, extractRawAmount, ha]

/-- Witness for the amended C8 theorem at `logC8`. -/
theorem deposit_roundtrip_verbatim_witness :
    parseSingleEvent logC8 = some (parseDepositEvent logC8) ∧
    (parseDepositEvent logC8).operation = .deposit ∧
    (parseDepositEvent logC8).address = some logC8.user ∧
    (parseDepositEvent logC8).tokenAddress = some logC8.tokenAddress ∧
    (parseDepositEvent logC8).rawAmount = some (Nat.repr logC8.amount) ∧
    (saveState cfgE [] 1010 [parseDepositEvent logC8] []).map
        (fun r => (r.address, r.tokenAddress, r.rawAmount, r.operation,
          r.tokenDecimals)) =
      [(some logC8.user, some logC8.tokenAddress, Nat.repr logC8.amount,
        TRANSACTION_OPERATION.deposit, 18)] :=
  deposit_roundtrip_verbatim logC8 cfgE [] 1010 (by decide) (by decide)
    (by decide) (by decide)

/-- The first endpoint determines `callRpcAux`'s behaviour independently of
the accumulated `lastError` (it only matters at exhaustion). -/
theorem callRpcAux_cons {T : Type} (f : String → Except String T)
    (u : String) (rest : List String) (s : Option String) :
    callRpcAux f (u :: rest) s = callRpcAux f (u :: rest) none := rfl

/-- Skipping a prefix of recoverable failures: `callRpcAux` returns the
first success after them, for any accumulated error. -/
theorem callRpcAux_skip_recoverable {T : Type} (f : String → Except String T)
    (pre : List String) (u : String) (rest : List String) (v : T)
    (hpre : ∀ x ∈ pre, ∃ er, f x = .error er ∧ isRecoverableRpcError er = true)
    (hu : f u = .ok v) (s : Option String) :
    callRpcAux f (pre ++ u :: rest) s = .ok v := by
  induction pre generalizing s with
  | nil => simp [callRpcAux, hu]
  | cons x xs ih =>
      rcases hpre x (List.mem_cons_self x xs) with ⟨er, hx, hrec⟩
      simp only [List.cons_append, callRpcAux, hx, hrec, if_pos]
      exact ih (fun y hy => hpre y (List.mem_cons_of_mem x hy)) (some er)

/-- Exhaustion: when every endpoint fails recoverably, `callRpcAux`
surfaces the error of the last endpoint. -/
theorem callRpcAux_exhausted {T : Type} (f : String → Except String T)
    (urls : List String) (l : String) (e : String)
    (hall : ∀ x ∈ urls, ∃ er, f x = .error er ∧ isRecoverableRpcError er = true)
    (hlast : urls.getLast? = some l) (hl : f l = .error e) (s : Option String) :
    callRpcAux f urls s = .error e := by
  induction urls generalizing s with
  | nil => cases hlast
  | cons x xs ih =>
      rcases hall x (List.mem_cons_self x xs) with ⟨er, hx, hrec⟩
      cases xs with
      | nil =>
          have hxl : x = l := by simpa using hlast
          subst hxl
          rw [hx] at hl
          cases hl
          simp [callRpcAux, hx, hrec]
      | cons y ys =>
          have hlast' : (y :: ys).getLast? = some l := by
            rwa [List.getLast?_cons_cons] at hlast
          simp only [callRpcAux, hx, hrec, if_pos]
          exact ih (fun z hz => hall z (List.mem_cons_of_mem x hz)) hlast' (some er)

/-- C9: the `callRpc` failover contract.  (1) A success on the first
endpoint is returned as-is; (2) a non-recoverable error on the first
endpoint propagates immediately, without trying further endpoints;
(3) after any prefix of recoverably-failing endpoints, the first success
is returned; (4) when every endpoint fails recoverably, the error of the
last endpoint is thrown.  Recoverability is the message classification of
`call-rpc.ts` (429 / "has been pruned" / "disconnect" / "failed to detect
network" / lower-cased "internal"). -/
theorem callRpc_contract {T : Type} (f : String → Except String T)
    (u : String) (rest urls pre : List String) (v : T) (e : String) :
    (f u = .ok v → callRpc f (u :: rest) = .ok v) ∧
    (f u = .error e → isRecoverableRpcError e = false →
      callRpc f (u :: rest) = .error e) ∧
    ((∀ x ∈ pre, ∃ er, f x = .error er ∧ isRecoverableRpcError er = true) →
      f u = .ok v → callRpc f (pre ++ u :: rest) = .ok v) ∧
    (∀ l, (∀ x ∈ urls, ∃ er, f x = .error er ∧ isRecoverableRpcError er = true) →
      urls.getLast? = some l → f l = .error e → callRpc f urls = .error e) := by
  refine ⟨?_, ?_, ?_, ?_⟩
  · intro h; simp [callRpc, callRpcAux, h]
  · intro h hrec; simp [callRpc, callRpcAux, h, hrec]
  · intro hpre hu; exact callRpcAux_skip_recoverable f pre u rest v hpre hu none
  · intro l hall hlast hl; exact callRpcAux_exhausted f urls l e hall hlast hl none

/-- A concrete operation for the C9 witness: endpoint "a" is rate-limited,
endpoint "b" answers 7, endpoint "c" returns a non-recoverable error. -/
def fC9 : String → Except String Nat := fun u =>
  if u = "a" then .error "429 Too Many Requests"
  else if u = "b" then .ok 7
  else .error "invalid response"

/-- Witness for the C9 theorem: failover past the 429 endpoint succeeds,
a non-recoverable error propagates, and exhaustion returns the last
recoverable error. -/
theorem callRpc_contract_witness :
    callRpc fC9 (["a"] ++ "b" :: []) = .ok 7 ∧
    callRpc fC9 ("c" :: ["b"]) = .error "invalid response" ∧
    callRpc fC9 ["a", "a"] = .error "429 Too Many Requests" := by
  refine ⟨?_, ?_, ?_⟩
  · exact (callRpc_contract fC9 "b" [] [] ["a"] 7 "").2.2.1
      (by intro x hx
          rcases List.mem_singleton.mp hx with rfl
          exact ⟨"429 Too Many Requests", rfl, by decide⟩)
      rfl
  · exact (callRpc_contract fC9 "c" ["b"] [] [] 0 "invalid response").2.1
      rfl (by decide)
  · exact (callRpc_contract fC9 "" [] ["a", "a"] [] 0
      "429 Too Many Requests").2.2.2 "a"
      (by intro x hx
          rcases List.mem_cons.mp hx with rfl | hx'
          · exact ⟨"429 Too Many Requests", rfl, by decide⟩
          · rcases List.mem_singleton.mp hx' with rfl
            exact ⟨"429 Too Many Requests", rfl, by decide⟩)
      rfl rfl

/-- C10: JS falsy-zero handling in the parsers.  (a) A `Deposit`/`Withdraw`
log whose `amount` argument is 0 parses with `rawAmount` and `amount`
`undefined` (the crawler-persisted row then takes the column default
`'0'`, not the string `"0"` computed from the argument).  (b) A log whose
`decimals` argument is 0 parses with `decimals` absent, the formatted
amount is computed with 18 decimals, and the fallback-stored
`tokenDecimals` defaults to 18. -/
theorem zero_amount_and_zero_decimals_fallback (e : EventLog) :
    (e.amount = 0 →
      (parseDepositEvent e).rawAmount = none ∧
      (parseDepositEvent e).amount = none ∧
      (parseWithdrawEvent e).rawAmount = none ∧
      (parseWithdrawEvent e).amount = none ∧
      ∀ (cfg : ChainConfig) (bm : BlockMap) (latest : Int),
        (saveState cfg bm latest [parseDepositEvent e] []).map
          (fun r => (r.rawAmount, r.amount)) = [("0", "0")]) ∧
    (e.decimals = 0 →
      (parseDepositEvent e).decimals = none ∧
      (parseWithdrawEvent e).decimals = none ∧
      (e.amount ≠ 0 →
        (parseDepositEvent e).amount = some (formatUnits e.amount 18)) ∧
      ∀ (cfg : ChainConfig) (rh : String) (bn bts : Int) (bh : String)
        (latest : Int),
        (createTransactionEntity (parseDepositEvent e) cfg rh bn bts bh
          latest).tokenDecimals = 18) := by
  constructor
  · intro h0
    refine ⟨by simp [parseDepositEvent, extractRawAmount, h0],
      by simp [parseDepositEvent, extractAmount, extractRawAmount, h0],
      by simp [parseWithdrawEvent, extractRawAmount, h0],
      by simp [parseWithdrawEvent, extractAmount, extractRawAmount, h0],
      ?_⟩
    intro cfg bm latest
    have hsave : saveState cfg bm latest [parseDepositEvent e] [] =
        [refreshRow cfg latest (insertRow (mkTransaction cfg bm
          (latest - (parseDepositEvent e).blockNumber + 1)
          (parseDepositEvent e)))] := rfl
    rw [hsave]
    simp only [List.map_cons, List.map_nil, refreshRow_rawAmount,
      refreshRow_amount]
    simp [insertRow, mkTransaction, parseDepositEvent, extractRawAmount,
      extractAmount, h0]
  · intro hd
    refine ⟨by simp [parseDepositEvent, extractDecimals, hd],
      by simp [parseWithdrawEvent, extractDecimals, hd], ?_, ?_⟩
    · intro ha
      simp [parseDepositEvent, extractAmount, extractRawAmount, ha, hd]
    · intro cfg rh bn bts bh latest
      simp [createTransactionEntity, parseDepositEvent, extractDecimals, hd]

/-- A `Deposit` log with `amount = 0`. -/
def logZeroAmt : EventLog :=
  { eventName := "Deposit", address := "0xCC", blockNumber := 1005,
    transactionHash := "0xZ0", blockHash := "0xh1005",
    user := "0xU", tokenAddress := "0xT", amount := 0, decimals := 18 }

/-- A `Deposit` log with `decimals = 0` and a nonzero amount. -/
def logZeroDec : EventLog :=
  { eventName := "Deposit", address := "0xCC", blockNumber := 1005,
    transactionHash := "0xZD", blockHash := "0xh1005",
    user := "0xU", tokenAddress := "0xT", amount := 5, decimals := 0 }

/-- Witness for the C10 theorem at the two concrete logs. -/
theorem zero_amount_and_zero_decimals_fallback_witness :
    (parseDepositEvent logZeroAmt).rawAmount = none ∧
    (parseDepositEvent logZeroAmt).amount = none ∧
    (saveState cfgE [] 1010 [parseDepositEvent logZeroAmt] []).map
      (fun r => (r.rawAmount, r.amount)) = [("0", "0")] ∧
    (parseDepositEvent logZeroDec).decimals = none ∧
    (parseDepositEvent logZeroDec).amount =
      some (formatUnits logZeroDec.amount 18) ∧
    (createTransactionEntity (parseDepositEvent logZeroDec) cfgE "0xBEEF"
      1008 0 "0xh1008" 1025).tokenDecimals = 18 := by
  have h1 := (zero_amount_and_zero_decimals_fallback logZeroAmt).1 rfl
  have h2 := (zero_amount_and_zero_decimals_fallback logZeroDec).2 rfl
  exact ⟨h1.1, h1.2.1, h1.2.2.2.2 cfgE [] 1010, h2.1,
    h2.2.2.1 (by decide), h2.2.2.2 cfgE "0xBEEF" 1008 0 "0xh1008" 1025⟩
